import Mathlib

/-!
Shallow embedding of the `fourree` synthetic-row generator (Rust) and proofs
about its row-generation engine, configuration validation and the S3 multipart
output sink.  Each definition is translated from the named place in the Rust
source; modelling decisions are recorded in the doc comments.
-/

set_option autoImplicit false

namespace Fourree

/-! ## Random source model

`rand::ThreadRng` is modelled as an infinite stream of raw non-negative draws
together with a cursor.  Each primitive generator consumes draws in order.
The distributions themselves (uniform ranges, normal) are reduced to explicit
arithmetic on the raw draws; every claim proved below is either independent of
the distribution or quantifies over all random states.
-/

structure Rng where
  stream : Nat → Nat
  pos : Nat

/-- Draw the next raw value and advance the cursor. -/
def Rng.next (r : Rng) : Nat × Rng := (r.stream r.pos, ⟨r.stream, r.pos + 1⟩)

/-- One byte obtained through `Rng::fill_bytes` (used by `generate_date`). -/
def Rng.nextByte (r : Rng) : Nat × Rng :=
  let (d, r') := r.next
  (d % 256, r')

/-! ## String helpers from the `pad` crate and `Vec::join` -/

/-- `PadStr::pad(width, pad_char, Alignment::Right, false)` of the `pad` crate,
as called in schema.rs:97 and generators.rs:20: a string of at least `width`
characters is returned unchanged (`truncate == false`), otherwise the padding
character is inserted on the left until the width is reached. -/
def padRight (s : String) (width : Nat) (padChar : Char) : String :=
  if width ≤ s.length then s
  else String.mk (List.replicate (width - s.length) padChar) ++ s

/-- Rust `Vec::<String>::join(delim)`. -/
def rustJoin (delim : String) : List String → String
  | [] => ""
  | [s] => s
  | s :: t :: rest => s ++ delim ++ rustJoin delim (t :: rest)

/-- Plain concatenation of a list of strings (specification-side helper). -/
def joinAll : List String → String
  | [] => ""
  | s :: rest => s ++ joinAll rest

/-! ## usize arithmetic

schema.rs:100-101 computes `field_length - field_data.len()` on `usize` and
then tests `!length_diff == 0` (`!` is bitwise NOT on `usize`).  We model the
release-mode wrapping semantics of the subtraction explicitly; the single
divergence from debug mode (a panic on underflow) does not affect any verdict
below, as noted where it matters. -/

/-- `2 ^ 64`, the modulus of `usize` on the 64-bit targets the crate builds for. -/
def USIZE : Nat := 18446744073709551616

/-- Wrapping `usize` subtraction (release-mode semantics of `a - b`). -/
def usizeSub (a b : Nat) : Nat := (a % USIZE + (USIZE - b % USIZE)) % USIZE

/-- Bitwise NOT on `usize`. -/
def usizeNot (a : Nat) : Nat := USIZE - 1 - a % USIZE

/-- The apostrophe character, used to reproduce the source error texts. -/
def quote : String := (Char.ofNat 39).toString

/-- Error text of schema.rs:89-91 (whitespace of the multi-line format string
normalized to single spaces). -/
def lengthRequiredMsg (name : String) : String :=
  quote ++ "length" ++ quote ++
    " is required for a fixed file format, but is missing for field " ++ name

/-- Error text of schema.rs:102-104 (whitespace normalized likewise). -/
def paddingUndefinedMsg (name : String) : String :=
  quote ++ "padding" ++ quote ++ " is undefined for field " ++ name ++
    " but field_data is less than " ++ quote ++ "length" ++ quote ++ "."

/-! ## Primitive generators (src/generators.rs) -/

/-- generators.rs:9. -/
def UPPERCASE_CHARS : List Char :=
  ['A','B','C','D','E','F','G','H','I','J','K','L','M','N',
   'O','P','Q','R','S','T','U','V','W','X','Y','Z']

/-- generators.rs:12: `Date { day: u8, month: u8, year: u16 }`. -/
structure Date where
  day : Nat
  month : Nat
  year : Nat

/-- `Date::to_string` (generators.rs:18-22). -/
def Date.toStr (d : Date) : String :=
  toString d.year ++ "-" ++ padRight (toString d.month) 2 '0' ++ "-" ++
    padRight (toString d.day) 2 '0'

/-- `generate_integer` (generators.rs:30-33): one uniform sample from
`Range::new(min, max)`, i.e. from `[min, max)`.  The sample is modelled as
`min + draw % (max - min)`; `Range::new` panics when `min >= max`, modelled as
`none`. -/
def generate_integer (rng : Rng) (min max : Int) : Option (Int × Rng) :=
  if min < max then
    let (d, rng') := rng.next
    some (min + (d : Int) % (max - min), rng')
  else none

/-- `generate_string` (generators.rs:42-57): `length` uniform picks from the
26 uppercase letters, concatenated in draw order. -/
def generate_string : Rng → Nat → String × Rng
  | rng, 0 => ("", rng)
  | rng, n + 1 =>
    let (d, rng') := rng.next
    let c := UPPERCASE_CHARS.getD (d % 26) 'A'
    let (rest, rng'') := generate_string rng' n
    (String.mk (c :: rest.data), rng'')

/-- `generate_gauss` (generators.rs:65-68) draws from `Normal(mean, std_dev)`
and casts to `i32`.  The floating-point sampling is not modelled: the
embedding consumes one raw draw and returns an integer determined by it.  No
claim constrains the distribution of this generator, only that it yields some
integer rendered with `to_string`. -/
def generate_gauss (rng : Rng) (mean std_dev : Int) : Int × Rng :=
  let (d, rng') := rng.next
  (mean + (d : Int) % (std_dev.natAbs + 1), rng')

/-- `generate_date` (generators.rs:76-96): three bytes from `fill_bytes`,
scaled into month, year and day exactly as in the source, including the
simplified day-count table of the `match` on generators.rs:83-87
(`1 | 3 | 5 | 7...8 | 10 | 12 => 31, 2 => 28, _ => 30`). -/
def generate_date (rng : Rng) : Date × Rng :=
  let (b0, rng1) := rng.nextByte
  let (b1, rng2) := rng1.nextByte
  let (b2, rng3) := rng2.nextByte
  let month := (b0 * 11) / 255 + 1
  let year := (b1 * 115) / 255 + 1900 + 1
  let day_range : Nat :=
    if month = 1 ∨ month = 3 ∨ month = 5 ∨ (7 ≤ month ∧ month ≤ 8) ∨
        month = 10 ∨ month = 12 then 31
    else if month = 2 then 28
    else 30
  let day := (b2 * (day_range - 1)) / 255 + 1
  ({ day := day, month := month, year := year }, rng3)

/-- `generate_choice` (generators.rs:105-111): `length` repetitions of
`rng.choose(choices).unwrap()`, appended in draw order.  `choose` on an empty
slice yields `None`, so the `unwrap` panics, modelled as `none`. -/
def generate_choice : Rng → List String → Nat → Option (String × Rng)
  | rng, _, 0 => some ("", rng)
  | rng, choices, n + 1 =>
    let (d, rng') := rng.next
    match choices.get? (d % choices.length) with
    | none => none
    | some c =>
      match generate_choice rng' choices n with
      | none => none
      | some (rest, rng'') => some (c ++ rest, rng'')

/-! ## Field and schema model (src/schema.rs) -/

/-- schema.rs:11-19.  `GaussF32` carries `f32` parameters in the source; the
floating-point values play no role in any claim and are carried as integers
scaled from the same numerals the schema loader would parse. -/
inductive FieldGenerator where
  | NoGen
  | Integer (min max : Int)
  | Gauss (mean std_dev : Int)
  | GaussF32 (mean std_dev : Int)
  | Date
  | String (length : Nat)
  | Choice (choices : List String) (choice_length : Nat) (length : Nat)

/-- schema.rs:21-27. -/
structure Field where
  name : String
  data_type : String
  length : Option Nat
  padding : Option Char
  generator : FieldGenerator

/-- `impl Generator for Field` (schema.rs:29-53): dispatch on the generator
variant, rendering the produced value with `to_string`; the wildcard arm
covers `NoGen` with the literal `"None"`.  `none` models a panic inside a
generator (empty choice slice, `Range::new` with `min >= max`).  The source
call `generate_choice(rng, choices.as_slice(), choice_length, length)`
(schema.rs:48) passes `choice_length` to a three-parameter function; we keep
the spec-documented reading in which `choice_length` only records the maximum
element width and `length` is the repetition count. -/
def Field.generate (f : Field) (rng : Rng) : Option (String × Rng) :=
  match f.generator with
  | .Integer min max =>
    match generate_integer rng min max with
    | none => none
    | some (v, rng') => some (toString v, rng')
  | .Gauss mean std_dev =>
    let (v, rng') := generate_gauss rng mean std_dev
    some (toString v, rng')
  | .GaussF32 mean std_dev =>
    let (v, rng') := generate_gauss rng mean std_dev
    some (toString v, rng')
  | .String length =>
    let (s, rng') := generate_string rng length
    some (s, rng')
  | .Date =>
    let (d, rng') := generate_date rng
    some (d.toStr, rng')
  | .Choice choices _ length => generate_choice rng choices length
  | .NoGen => some ("None", rng)

/-- Sufficient condition for `Field.generate` never to panic: an `Integer`
generator has a non-empty range and a `Choice` generator a non-empty choice
set (the two panic sources of the generators). -/
def Field.genTotal (f : Field) : Bool :=
  match f.generator with
  | .Integer min max => decide (min < max)
  | .Choice choices _ _ => !choices.isEmpty
  | _ => true

/-- How a row-generation attempt can fail: an `Err` value returned by
`generate_row`, or a panic inside a generator. -/
inductive Failure where
  | err (msg : String)
  | panicked
deriving DecidableEq

/-- schema.rs:55-59. -/
structure Schema where
  table_name : String
  delimiter : String
  fields : List Field

/-- One iteration of the field loop of `generate_row` (schema.rs:85-110):
generate the raw value, then under the `"fixed"` delimiter enforce the
presence of `length` and apply the padding rules.  The no-padding branch is
the source's literal `let length_diff = field_length - field_data.len();
if !length_diff == 0 { return Err(..) }` — a wrapping subtraction followed by
a bitwise NOT (schema.rs:100-101), modelled with release-mode semantics. -/
def processField (delimiter : String) (f : Field) (rng : Rng) :
    Except Failure (String × Rng) :=
  match f.generate rng with
  | none => .error .panicked
  | some (field_data, rng') =>
    if delimiter = "fixed" then
      match f.length with
      | none => .error (.err (lengthRequiredMsg f.name))
      | some field_length =>
        match f.padding with
        | some p => .ok (padRight field_data field_length p, rng')
        | none =>
          let length_diff := usizeSub field_length field_data.length
          if usizeNot length_diff = 0 then
            .error (.err (paddingUndefinedMsg f.name))
          else .ok (field_data, rng')
    else .ok (field_data, rng')

/-- The field loop of `generate_row` (schema.rs:83-110), collecting the
processed field strings in field order. -/
def generateFields (delimiter : String) : List Field → Rng →
    Except Failure (List String × Rng)
  | [], rng => .ok ([], rng)
  | f :: fs, rng =>
    match processField delimiter f rng with
    | .error e => .error e
    | .ok (s, rng') =>
      match generateFields delimiter fs rng' with
      | .error e => .error e
      | .ok (rest, rng'') => .ok (s :: rest, rng'')

/-- The raw generated values of the fields in order, before any fixed-width
formatting (the sequence of `field.generate(rng)` calls of the loop). -/
def generateRaws : List Field → Rng → Option (List String × Rng)
  | [], rng => some ([], rng)
  | f :: fs, rng =>
    match f.generate rng with
    | none => none
    | some (s, rng') =>
      match generateRaws fs rng' with
      | none => none
      | some (rest, rng'') => some (s :: rest, rng'')

/-- `Schema::generate_row` (schema.rs:82-118): process every field, then join
with the literal delimiter, or with the empty string in `"fixed"` mode. -/
def Schema.generate_row (s : Schema) (rng : Rng) : Except Failure (String × Rng) :=
  match generateFields s.delimiter s.fields rng with
  | .error e => .error e
  | .ok (parts, rng') =>
    let delim := if s.delimiter = "fixed" then "" else s.delimiter
    .ok (rustJoin delim parts, rng')

/-- `Schema::generate_rows` (schema.rs:120-130): `size` rows, each appended to
the output buffer followed by one `'\n'`; the first failing row aborts the
whole batch. -/
def Schema.generate_rows (s : Schema) : Rng → Nat → Except Failure (String × Rng)
  | rng, 0 => .ok ("", rng)
  | rng, n + 1 =>
    match s.generate_row rng with
    | .error e => .error e
    | .ok (row, rng') =>
      match s.generate_rows rng' n with
      | .error e => .error e
      | .ok (rest, rng'') => .ok (row ++ "\n" ++ rest, rng'')

/-! ## Configuration and pipeline orchestration (src/config.rs, src/util.rs) -/

/-- config.rs:16-22. -/
inductive OutputMode where
  | None
  | Stdout
  | File
  | PostgreSQL
  | S3
deriving DecidableEq

/-- config.rs:24-28. -/
inductive LogType where
  | Console
  | File
deriving DecidableEq

/-- config.rs:30-39. -/
structure Config where
  num_rows : Nat
  batch_size : Nat
  log_type : LogType
  num_threads : Nat
  output_mode : OutputMode
  input_file : String
  output_file : Option String
  display_header : Bool

/-- The validation tail of `config::load` (config.rs:206-236), taking the
already-settled option values: the `output_file` defaulting, the batch/thread
divisibility check of config.rs:218-221, and the `Config` construction.
Argument parsing, the logger setup, the input-file I/O and the option-string
defaulting that precede it in `load` are I/O against external collaborators
and are outside the model; their results are this function's arguments. -/
def load (num_rows batch_size num_threads : Nat) (log_type : LogType)
    (output_mode : OutputMode) (output_file_opt : Option String)
    (input_file : String) (display_header : Bool) : Except String Config :=
  let output_file :=
    if output_mode = .File ∨ output_mode = .S3 then
      some (output_file_opt.getD "output.txt")
    else none
  let num_batches := num_rows / batch_size
  if num_batches % num_threads ≠ 0 then
    .error "Number of batches must be evenly divisible by number of threads."
  else
    .ok { num_rows := num_rows, batch_size := batch_size, log_type := log_type,
          num_threads := num_threads, output_mode := output_mode,
          input_file := input_file, output_file := output_file,
          display_header := display_header }

/-- Orchestration trace of `util::generate_data` (util.rs:233-285): how many
worker threads are spawned and how many batches each generation context runs.
The function performs no validation of its own; with `num_threads > 1` it
spawns `num_threads` workers of `batches_per_thread` batches each, otherwise
the calling thread runs `num_batches` batches itself. -/
structure PipelineTrace where
  workers_spawned : Nat
  batches_per_worker : Nat
  total_batches : Nat

/-- util.rs:233-285 (row generation and channel traffic omitted: only the
spawn/batch bookkeeping is needed by the claims). -/
def generate_data (config : Config) : PipelineTrace :=
  let num_batches := config.num_rows / config.batch_size
  let batches_per_thread := num_batches / config.num_threads
  if 1 < config.num_threads then
    { workers_spawned := config.num_threads,
      batches_per_worker := batches_per_thread,
      total_batches := config.num_threads * batches_per_thread }
  else
    { workers_spawned := 0,
      batches_per_worker := num_batches,
      total_batches := num_batches }

/-- The run as exposed to the operator: `load` validates the configuration and
only a successfully validated `Config` reaches `generate_data`. -/
def run (num_rows batch_size num_threads : Nat) (log_type : LogType)
    (output_mode : OutputMode) (output_file_opt : Option String)
    (input_file : String) (display_header : Bool) : Except String PipelineTrace :=
  match load num_rows batch_size num_threads log_type output_mode output_file_opt
      input_file display_header with
  | .error e => .error e
  | .ok config => .ok (generate_data config)

/-! ## S3 multipart output sink (src/util.rs:77-213)

The consumer loop of the S3 branch of `initialize_output_thread` is modelled
as a function of the sequence of messages received on the channel before it
is closed; a closed channel (`recv()` returning `Err`) is the source's
`"done"` substitution (util.rs:119-122).  The S3 transport is abstracted by a
success oracle for `upload_part` (per part number) and one for
`complete_multipart_upload`; a failing `upload_part` makes the source thread
panic (util.rs:146), a failing completion triggers the abort branch
(util.rs:179-199).  The buffer is kept as the list of appended chunks, whose
byte count is the source's `data.len()`. -/

/-- Byte length of a string (`String::len` in Rust counts UTF-8 bytes). -/
def strBytes (s : String) : Nat := s.utf8ByteSize

/-- Byte length of the accumulation buffer. -/
def bytesLen (chunks : List String) : Nat := (chunks.map strBytes).sum

/-- Loop state of the S3 consumer (util.rs:110-112 plus the upload log). -/
structure S3St where
  part_number : Nat
  data : List String
  completed_parts : List Nat
  uploaded : List (Nat × List String)
  upload_calls : Nat

/-- util.rs:110-112: `part_number = 1`, empty buffer, no completed parts. -/
def S3St.init : S3St :=
  { part_number := 1, data := [], completed_parts := [], uploaded := [],
    upload_calls := 0 }

/-- One iteration of the loop body (util.rs:114-160) on received message
`message` (where `"done"` also stands for the channel-closed case): append
unless the message is `"done"`, then flush one part when
`data.len() > 5242880 || message == "done"`.  On a failed `upload_part` the
thread panics (modelled as `.error` carrying the state at the panic). -/
def s3Step (uploadOk : Nat → Bool) (message : String) (st : S3St) :
    Except S3St S3St :=
  let data := if message ≠ "done" then st.data ++ [message] else st.data
  if 5242880 < bytesLen data ∨ message = "done" then
    if uploadOk st.part_number then
      .ok { part_number := st.part_number + 1, data := [],
            completed_parts := st.completed_parts ++ [st.part_number],
            uploaded := st.uploaded ++ [(st.part_number, data)],
            upload_calls := st.upload_calls + 1 }
    else
      .error { st with data := data, upload_calls := st.upload_calls + 1 }
  else
    .ok { st with data := data }

/-- The consumer loop (util.rs:114-161) over the messages received before the
channel closes; an exhausted list is the `Err(_) => "done"` branch, and a
received `"done"` breaks the loop after the flush (util.rs:158-160). -/
def s3Consume (uploadOk : Nat → Bool) : List String → S3St → Except S3St S3St
  | [], st => s3Step uploadOk "done" st
  | m :: ms, st =>
    match s3Step uploadOk m st with
    | .error stp => .error stp
    | .ok st' => if m = "done" then .ok st' else s3Consume uploadOk ms st'

/-- Observable outcome of one run of the S3 output thread. -/
structure S3Result where
  uploaded : List (Nat × List String)
  completed_parts : List Nat
  upload_calls : Nat
  completion_calls : Nat
  abort_calls : Nat
  panicked : Bool
  succeeded : Bool
deriving DecidableEq

/-- The whole S3 output thread (util.rs:109-212): run the consumer loop, then
issue `complete_multipart_upload` with the recorded parts (util.rs:163-177);
on completion failure issue one `abort_multipart_upload` (util.rs:179-199).
A panic during the loop reaches neither call. -/
def s3Run (uploadOk : Nat → Bool) (completeOk : Bool) (msgs : List String) :
    S3Result :=
  match s3Consume uploadOk msgs S3St.init with
  | .error st =>
    { uploaded := st.uploaded, completed_parts := st.completed_parts,
      upload_calls := st.upload_calls, completion_calls := 0, abort_calls := 0,
      panicked := true, succeeded := false }
  | .ok st =>
    if completeOk then
      { uploaded := st.uploaded, completed_parts := st.completed_parts,
        upload_calls := st.upload_calls, completion_calls := 1, abort_calls := 0,
        panicked := false, succeeded := true }
    else
      { uploaded := st.uploaded, completed_parts := st.completed_parts,
        upload_calls := st.upload_calls, completion_calls := 1, abort_calls := 1,
        panicked := false, succeeded := false }

/-! ## General helper lemmas -/

theorem str_append_empty (s : String) : s ++ "" = s := by
  cases s with
  | mk data => show String.mk (data ++ []) = String.mk data
               rw [List.append_nil]

theorem rustJoin_empty_delim : ∀ l : List String, rustJoin "" l = joinAll l
  | [] => rfl
  | [s] => by
    show s = s ++ joinAll []
    rw [show joinAll [] = "" from rfl, str_append_empty]
  | s :: t :: rest => by
    show s ++ "" ++ rustJoin "" (t :: rest) = s ++ joinAll (t :: rest)
    rw [str_append_empty, rustJoin_empty_delim (t :: rest)]

/-- A deterministic random source used by the concrete evaluations below. -/
def demoRng : Rng := ⟨fun _ => 0, 0⟩

/-- `demoRng` after one draw. -/
def demoRng1 : Rng := ⟨fun _ => 0, 1⟩

/-- `demoRng` after two draws. -/
def demoRng2 : Rng := ⟨fun _ => 0, 2⟩

/-! ## C1 — divisibility precondition -/

/-- C1: under any option values with `(num_rows / batch_size) % num_threads ≠ 0`
(and positive divisor values, where the source's `u64` arithmetic does not
panic), `load` rejects the configuration with the divisibility error, so the
composed run terminates with that configuration error and `generate_data`
never receives such a `Config`: no worker is started and no row generated. -/
theorem claim_C1 (num_rows batch_size num_threads : Nat) (log_type : LogType)
    (output_mode : OutputMode) (output_file_opt : Option String)
    (input_file : String) (display_header : Bool)
    (_hbs : 0 < batch_size) (_hnt : 0 < num_threads)
    (h : (num_rows / batch_size) % num_threads ≠ 0) :
    load num_rows batch_size num_threads log_type output_mode output_file_opt
        input_file display_header
      = .error "Number of batches must be evenly divisible by number of threads."
    ∧ run num_rows batch_size num_threads log_type output_mode output_file_opt
        input_file display_header
      = .error "Number of batches must be evenly divisible by number of threads." := by
  have hload : load num_rows batch_size num_threads log_type output_mode
      output_file_opt input_file display_header
      = .error "Number of batches must be evenly divisible by number of threads." := by
    unfold load
    simp [h]
  exact ⟨hload, by unfold run; rw [hload]⟩

/-- Witness for C1 at the spec's example `num_rows = 100, batch_size = 10,
num_threads = 3` (10 batches, `10 % 3 ≠ 0`). -/
theorem claim_C1_witness :
    load 100 10 3 LogType.File OutputMode.Stdout none "schema.json" false
      = .error "Number of batches must be evenly divisible by number of threads."
    ∧ run 100 10 3 LogType.File OutputMode.Stdout none "schema.json" false
      = .error "Number of batches must be evenly divisible by number of threads." :=
  claim_C1 100 10 3 LogType.File OutputMode.Stdout none "schema.json" false
    (by decide) (by decide) (by decide)

/-! ## C2 — generate_rows produces N newline-terminated rows -/

/-- C2: whenever `generate_rows` succeeds on count `n` it returns the
concatenation of `n` row strings, each followed by exactly one `'\n'`
(including the last); and on count `0` it returns the empty string without
consuming randomness. -/
theorem claim_C2 :
    (∀ (s : Schema) (rng : Rng) (n : Nat) (out : String) (rng' : Rng),
        s.generate_rows rng n = .ok (out, rng') →
        ∃ rows : List String, rows.length = n ∧
          out = joinAll (rows.map (fun r => r ++ "\n")))
    ∧ ∀ (s : Schema) (rng : Rng), s.generate_rows rng 0 = .ok ("", rng) := by
  constructor
  · intro s rng n
    induction n generalizing rng with
    | zero =>
      intro out rng' h
      refine ⟨[], rfl, ?_⟩
      simp only [Schema.generate_rows] at h
      cases h
      rfl
    | succ k ih =>
      intro out rng' h
      simp only [Schema.generate_rows] at h
      cases hrow : s.generate_row rng with
      | error e => rw [hrow] at h; cases h
      | ok p =>
        obtain ⟨row, rng1⟩ := p
        rw [hrow] at h
        dsimp only at h
        cases hrest : s.generate_rows rng1 k with
        | error e => rw [hrest] at h; cases h
        | ok q =>
          obtain ⟨rest, rng2⟩ := q
          rw [hrest] at h
          dsimp only at h
          cases h
          obtain ⟨rows, hlen, hjoin⟩ := ih rng1 rest _ hrest
          exact ⟨row :: rows, by simp [hlen], by simp [joinAll, hjoin]⟩
  · intro s rng
    rfl

/-- A concrete schema whose single `Integer{5, 6}` field deterministically
generates the value `5`. -/
def schemaC2 : Schema :=
  { table_name := "t", delimiter := ",",
    fields := [{ name := "a", data_type := "integer", length := none,
                 padding := none, generator := .Integer 5 6 }] }

/-- Witness for C2: two rows of `schemaC2` yield `"5\n5\n"`, which is two
newline-terminated lines. -/
theorem claim_C2_witness :
    ∃ rows : List String, rows.length = 2 ∧
      "5\n5\n" = joinAll (rows.map (fun r => r ++ "\n")) :=
  claim_C2.1 schemaC2 demoRng 2 "5\n5\n" demoRng2 rfl

/-! ## C8 — generated dates are in range -/

/-- The day-count table of the claim: 31 days for months 1, 3, 5, 7, 8, 10,
12, 28 for month 2, 30 otherwise. -/
def daysTable (m : Nat) : Nat :=
  if m = 1 ∨ m = 3 ∨ m = 5 ∨ m = 7 ∨ m = 8 ∨ m = 10 ∨ m = 12 then 31
  else if m = 2 then 28
  else 30

/-- C8: for every random-source state, `generate_date` yields a month in
`[1, 12]` and a day in `[1, daysTable month]`; in particular February is
always capped at 28. -/
theorem claim_C8 (rng : Rng) :
    1 ≤ ((generate_date rng).1).month ∧ ((generate_date rng).1).month ≤ 12 ∧
    1 ≤ ((generate_date rng).1).day ∧
    ((generate_date rng).1).day ≤ daysTable ((generate_date rng).1).month := by
  simp only [generate_date, Rng.nextByte, Rng.next, daysTable]
  split_ifs <;> simp_all <;> omega

/-! ## C5 — fixed-width length mismatch without padding -/

/-- The failing input for C5: a fixed-width schema with one field `"f"` of
`length = 5`, no padding character, and the deterministic generator
`Integer{7, 8}` (every draw yields `7`, a 1-character value). -/
def schemaC5 : Schema :=
  { table_name := "t", delimiter := "fixed",
    fields := [{ name := "f", data_type := "integer", length := some 5,
                 padding := none, generator := .Integer 7 8 }] }

/-- C5 at the failing input: the claim (and schema.rs's own error message)
expects a field-naming error because the 1-character value `"7"` differs from
`length = 5`, but the source's `if !length_diff == 0` test (schema.rs:101,
bitwise NOT on `usize`) is false for `length_diff = 4`, so `generate_row`
silently passes the value through at the wrong width. -/
theorem claim_C5_code_divergence :
    schemaC5.generate_row demoRng = .ok ("7", demoRng1) ∧ "7".length ≠ 5 := by
  constructor
  · rfl
  · decide

/-! ## C6 — fixed-width padding -/

/-- Counterexample input for C6: a fixed-width field of `length = 2` with
padding `'0'` whose generator `Integer{100, 101}` deterministically yields
the 3-character value `"100"`. -/
def schemaC6 : Schema :=
  { table_name := "t", delimiter := "fixed",
    fields := [{ name := "n", data_type := "integer", length := some 2,
                 padding := some '0', generator := .Integer 100 101 }] }

/-- C6 counterexample: with `length = 2` and padding configured, the field's
contribution to the generated row is the unpadded, untruncated 3-character
value `"100"` — not "exactly `length` characters" as the claim states
(`pad` with `truncate == false` returns an over-long value unchanged). -/
theorem claim_C6_counterexample :
    schemaC6.generate_row demoRng = .ok ("100", demoRng1) ∧
    ¬ ("100".length = 2) := by
  constructor
  · rfl
  · decide

/-- Under the `"fixed"` delimiter, if every field carries a length and a
padding character, a successful field loop returns exactly the raw generated
values, each formatted with `padRight`. -/
theorem generateFields_fixed_padded :
    ∀ (fields : List Field) (rng : Rng) (parts : List String) (rng' : Rng),
      (∀ f ∈ fields, f.length.isSome ∧ f.padding.isSome) →
      generateFields "fixed" fields rng = .ok (parts, rng') →
      ∃ raws : List String,
        generateRaws fields rng = some (raws, rng') ∧
        parts = List.zipWith
          (fun f raw => padRight raw (f.length.getD 0) (f.padding.getD ' '))
          fields raws := by
  intro fields
  induction fields with
  | nil =>
    intro rng parts rng' _ h
    simp only [generateFields] at h
    cases h
    exact ⟨[], rfl, rfl⟩
  | cons f fs ih =>
    intro rng parts rng' hall h
    obtain ⟨hlen, hpad⟩ := hall f (by simp)
    obtain ⟨L, hL⟩ := Option.isSome_iff_exists.mp hlen
    obtain ⟨p, hp⟩ := Option.isSome_iff_exists.mp hpad
    simp only [generateFields] at h
    cases hg : f.generate rng with
    | none =>
      have hpf : processField "fixed" f rng = .error .panicked := by
        simp [processField, hg]
      rw [hpf] at h
      cases h
    | some q =>
      obtain ⟨v, rng1⟩ := q
      have hpf : processField "fixed" f rng = .ok (padRight v L p, rng1) := by
        simp [processField, hg, hL, hp]
      rw [hpf] at h
      dsimp only at h
      cases hrec : generateFields "fixed" fs rng1 with
      | error e => rw [hrec] at h; cases h
      | ok q2 =>
        obtain ⟨rest, rng2⟩ := q2
        rw [hrec] at h
        dsimp only at h
        cases h
        obtain ⟨raws, hraws, hparts⟩ :=
          ih rng1 rest _ (fun g hgm => hall g (by simp [hgm])) hrec
        refine ⟨v :: raws, ?_, ?_⟩
        · simp [generateRaws, hg, hraws]
        · simp [hparts, hL, hp]

/-- C6 amended: under the `"fixed"` delimiter, a successful `generate_row` on
fields that all carry a length and a padding character is the concatenation
of the per-field values formatted by `padRight`; such a formatted value is
exactly `length` characters with the padding character inserted on the left
(value right-aligned) whenever the natural value fits, and is passed through
unchanged (longer than `length`, never truncated) otherwise. -/
theorem claim_C6_amended :
    (∀ (s : Schema) (rng : Rng) (out : String) (rng' : Rng),
        s.delimiter = "fixed" →
        (∀ f ∈ s.fields, f.length.isSome ∧ f.padding.isSome) →
        s.generate_row rng = .ok (out, rng') →
        ∃ raws : List String,
          generateRaws s.fields rng = some (raws, rng') ∧
          out = joinAll (List.zipWith
            (fun f raw => padRight raw (f.length.getD 0) (f.padding.getD ' '))
            s.fields raws))
    ∧ (∀ (raw : String) (L : Nat) (p : Char),
        (raw.length ≤ L →
          (padRight raw L p).length = L ∧
          padRight raw L p = String.mk (List.replicate (L - raw.length) p) ++ raw)
        ∧ (L < raw.length → padRight raw L p = raw)) := by
  constructor
  · intro s rng out rng' hdelim hall h
    unfold Schema.generate_row at h
    rw [hdelim] at h
    cases hgf : generateFields "fixed" s.fields rng with
    | error e => rw [hgf] at h; cases h
    | ok q =>
      obtain ⟨parts, rng2⟩ := q
      rw [hgf] at h
      dsimp only at h
      rw [if_pos rfl] at h
      cases h
      obtain ⟨raws, hraws, hparts⟩ :=
        generateFields_fixed_padded s.fields rng parts _ hall hgf
      exact ⟨raws, hraws, by rw [rustJoin_empty_delim, hparts]⟩
  · intro raw L p
    constructor
    · intro hle
      unfold padRight
      by_cases hcase : L ≤ raw.length
      · have hEq : L = raw.length := Nat.le_antisymm hcase hle
        rw [if_pos hcase, hEq, Nat.sub_self]
        refine ⟨rfl, ?_⟩
        cases raw with
        | mk data => rfl
      · rw [if_neg hcase]
        constructor
        · cases raw with
          | mk data =>
            show (String.mk (List.replicate (L - (String.mk data).length) p ++ data)).length = L
            simp [String.length] at hle ⊢
            omega
        · rfl
    · intro hlt
      unfold padRight
      rw [if_pos (Nat.le_of_lt hlt)]

/-- Witness for the amended C6 at `schemaC6` (raw value `"100"`, `length = 2`,
padding `'0'`). -/
theorem claim_C6_amended_witness :
    ∃ raws : List String,
      generateRaws schemaC6.fields demoRng = some (raws, demoRng1) ∧
      "100" = joinAll (List.zipWith
        (fun f raw => padRight raw (f.length.getD 0) (f.padding.getD ' '))
        schemaC6.fields raws) :=
  claim_C6_amended.1 schemaC6 demoRng "100" demoRng1 rfl (by decide) rfl

/-! ## C7 — missing length under the fixed delimiter -/

/-- A non-empty choice set makes `generate_choice` total. -/
theorem generate_choice_total :
    ∀ (n : Nat) (choices : List String) (rng : Rng), choices ≠ [] →
      ∃ v rng', generate_choice rng choices n = some (v, rng') := by
  intro n
  induction n with
  | zero => exact fun choices rng _ => ⟨"", rng, rfl⟩
  | succ k ih =>
    intro choices rng hne
    have hpos : 0 < choices.length := List.length_pos.mpr hne
    rcases hn : rng.next with ⟨d, rng'⟩
    have hlt : d % choices.length < choices.length := Nat.mod_lt _ hpos
    have hc : choices.get? (d % choices.length)
        = some (choices.get ⟨d % choices.length, hlt⟩) := List.get?_eq_get hlt
    obtain ⟨rest, rng'', hrec⟩ := ih choices rng' hne
    refine ⟨choices.get ⟨d % choices.length, hlt⟩ ++ rest, rng'', ?_⟩
    simp only [generate_choice, hn, hc, hrec]

/-- `Field.genTotal` is sufficient for `Field.generate` to succeed. -/
theorem genTotal_generate (f : Field) (rng : Rng) (h : f.genTotal = true) :
    ∃ v rng', f.generate rng = some (v, rng') := by
  cases hfg : f.generator with
  | Integer min max =>
    have hlt : min < max := by
      rw [Field.genTotal, hfg] at h
      exact of_decide_eq_true h
    rcases hn : rng.next with ⟨d, r⟩
    refine ⟨toString (min + (d : Int) % (max - min)), r, ?_⟩
    simp [Field.generate, hfg, generate_integer, hlt, hn]
  | Gauss mean std_dev =>
    rcases hg : generate_gauss rng mean std_dev with ⟨v, r⟩
    exact ⟨toString v, r, by simp [Field.generate, hfg, hg]⟩
  | GaussF32 mean std_dev =>
    rcases hg : generate_gauss rng mean std_dev with ⟨v, r⟩
    exact ⟨toString v, r, by simp [Field.generate, hfg, hg]⟩
  | Date =>
    rcases hd : generate_date rng with ⟨dte, r⟩
    exact ⟨dte.toStr, r, by simp [Field.generate, hfg, hd]⟩
  | String length =>
    rcases hs : generate_string rng length with ⟨v, r⟩
    exact ⟨v, r, by simp [Field.generate, hfg, hs]⟩
  | NoGen => exact ⟨"None", rng, by simp [Field.generate, hfg]⟩
  | Choice choices clen length =>
    have hne : choices ≠ [] := by
      rw [Field.genTotal, hfg] at h
      simpa [List.isEmpty_iff] using h
    obtain ⟨v, rng', hv⟩ := generate_choice_total length choices rng hne
    exact ⟨v, rng', by simp [Field.generate, hfg, hv]⟩

/-- Under `"fixed"`, the field loop can never succeed on a list containing a
field without a length. -/
theorem generateFields_missing_length :
    ∀ (fields : List Field) (rng : Rng) (f : Field), f ∈ fields →
      f.length = none →
      ∀ parts rng', generateFields "fixed" fields rng ≠ .ok (parts, rng') := by
  intro fields
  induction fields with
  | nil => intro rng f hmem; cases hmem
  | cons g gs ih =>
    intro rng f hmem hnone parts rng' h
    simp only [generateFields] at h
    cases hpf : processField "fixed" g rng with
    | error e => rw [hpf] at h; cases h
    | ok q =>
      obtain ⟨sv, rng1⟩ := q
      rw [hpf] at h
      dsimp only at h
      rcases List.mem_cons.mp hmem with hfg | htail
      · subst hfg
        rw [processField, ] at hpf
        cases hg : f.generate rng with
        | none => rw [hg] at hpf; cases hpf
        | some q2 =>
          obtain ⟨v, rng2⟩ := q2
          rw [hg] at hpf
          dsimp only at hpf
          rw [if_pos rfl, hnone] at hpf
          cases hpf
      · cases hrec : generateFields "fixed" gs rng1 with
        | error e => rw [hrec] at h; cases h
        | ok q2 =>
          obtain ⟨rest, rng2⟩ := q2
          exact ih rng1 f htail hnone rest rng2 hrec

/-- Under `"fixed"`, if every field before `f` has a length, a padding
character and a total generator, and `f` itself has a total generator but no
length, the loop stops at `f` with the source's field-naming error. -/
theorem generateFields_first_missing :
    ∀ (pre : List Field) (rng : Rng) (f : Field) (post : List Field),
      f.length = none → f.genTotal = true →
      (∀ g ∈ pre, g.genTotal = true ∧ g.length.isSome ∧ g.padding.isSome) →
      generateFields "fixed" (pre ++ f :: post) rng
        = .error (.err (lengthRequiredMsg f.name)) := by
  intro pre
  induction pre with
  | nil =>
    intro rng f post hnone hT _
    obtain ⟨v, rng', hv⟩ := genTotal_generate f rng hT
    have hpf : processField "fixed" f rng
        = .error (.err (lengthRequiredMsg f.name)) := by
      simp [processField, hv, hnone]
    simp only [List.nil_append, generateFields, hpf]
  | cons g gs ih =>
    intro rng f post hnone hT hall
    obtain ⟨hgT, hglen, hgpad⟩ := hall g (by simp)
    obtain ⟨L, hL⟩ := Option.isSome_iff_exists.mp hglen
    obtain ⟨p, hp⟩ := Option.isSome_iff_exists.mp hgpad
    obtain ⟨v, rng', hv⟩ := genTotal_generate g rng hgT
    have hpf : processField "fixed" g rng = .ok (padRight v L p, rng') := by
      simp [processField, hv, hL, hp]
    have hrec := ih rng' f post hnone hT (fun g' hg' => hall g' (by simp [hg']))
    rw [show (g :: gs) ++ f :: post = g :: (gs ++ f :: post) from rfl]
    simp only [generateFields, hpf]
    rw [hrec]

/-- C7: under the `"fixed"` delimiter, a schema with a length-less field never
produces a row — `generate_row` always fails; and whenever every field before
the offending one is well-formed (length, padding, total generator) the error
returned is exactly the source's message naming that field. -/
theorem claim_C7 :
    (∀ (s : Schema) (rng : Rng) (f : Field), s.delimiter = "fixed" →
        f ∈ s.fields → f.length = none →
        ∀ p : String × Rng, s.generate_row rng ≠ .ok p)
    ∧ (∀ (s : Schema) (rng : Rng) (pre post : List Field) (f : Field),
        s.delimiter = "fixed" → s.fields = pre ++ f :: post →
        f.length = none → f.genTotal = true →
        (∀ g ∈ pre, g.genTotal = true ∧ g.length.isSome ∧ g.padding.isSome) →
        s.generate_row rng = .error (.err (lengthRequiredMsg f.name))) := by
  constructor
  · intro s rng f hdelim hmem hnone p h
    unfold Schema.generate_row at h
    rw [hdelim] at h
    cases hgf : generateFields "fixed" s.fields rng with
    | error e => rw [hgf] at h; cases h
    | ok q =>
      exact generateFields_missing_length s.fields rng f hmem hnone q.1 q.2
        (by rw [hgf])
  · intro s rng pre post f hdelim hfields hnone hT hall
    unfold Schema.generate_row
    rw [hdelim, hfields,
      generateFields_first_missing pre rng f post hnone hT hall]

/-- The schema of C7's witness: a well-formed field followed by a field with
no length. -/
def schemaC7 : Schema :=
  { table_name := "t", delimiter := "fixed",
    fields := [{ name := "g", data_type := "integer", length := some 3,
                 padding := some '0', generator := .Integer 0 10 },
               { name := "b", data_type := "string", length := none,
                 padding := none, generator := .String 2 }] }

/-- Witness for C7: on `schemaC7` the row generation fails with the error
naming field `"b"`. -/
theorem claim_C7_witness :
    schemaC7.generate_row demoRng = .error (.err (lengthRequiredMsg "b")) :=
  claim_C7.2 schemaC7 demoRng
    [{ name := "g", data_type := "integer", length := some 3,
       padding := some '0', generator := .Integer 0 10 }]
    []
    { name := "b", data_type := "string", length := none,
      padding := none, generator := .String 2 }
    rfl rfl rfl (by decide) (by decide)

/-! ## S3 sink helper lemmas -/

theorem str_append_assoc (a b c : String) : (a ++ b) ++ c = a ++ (b ++ c) := by
  cases a with
  | mk x =>
    cases b with
    | mk y =>
      cases c with
      | mk z =>
        show String.mk ((x ++ y) ++ z) = String.mk (x ++ (y ++ z))
        rw [List.append_assoc]

theorem joinAll_append : ∀ a b : List String, joinAll (a ++ b) = joinAll a ++ joinAll b
  | [], b => by
    show joinAll b = "" ++ joinAll b
    cases hj : joinAll b with
    | mk z => show String.mk ([] ++ z) = String.mk z
              rw [List.nil_append]
  | s :: rest, b => by
    show s ++ joinAll (rest ++ b) = (s ++ joinAll rest) ++ joinAll b
    rw [joinAll_append rest b, str_append_assoc]

theorem joinAll_single (s : String) : joinAll [s] = s := by
  show s ++ "" = s
  exact str_append_empty s

theorem utf8go_cons (c : Char) (cs : List Char) :
    String.utf8ByteSize.go (c :: cs) = String.utf8ByteSize.go cs + c.utf8Size := rfl

/-- Byte size of an all-`'A'` string of `n` characters. -/
theorem strBytes_replicate_A (n : Nat) :
    strBytes (String.mk (List.replicate n 'A')) = n := by
  induction n with
  | zero => rfl
  | succ k ih =>
    simp only [List.replicate, strBytes, String.utf8ByteSize, utf8go_cons] at ih ⊢
    have hA : 'A'.utf8Size = 1 := rfl
    omega

/-- An all-`'A'` string is never the sentinel `"done"` unless it has exactly
4 characters. -/
theorem replicate_A_ne_done (n : Nat) (h : n ≠ 4) :
    String.mk (List.replicate n 'A') ≠ "done" := by
  intro hc
  have := congrArg String.length hc
  simp [String.length] at this
  omega

/-- A 1 MiB batch (1048576 bytes). -/
def oneMiB : String := String.mk (List.replicate 1048576 'A')

/-- A single 12 MiB batch (12582912 bytes). -/
def twelveMiB : String := String.mk (List.replicate 12582912 'A')

/-- A batch one byte over the 5 MiB flush threshold. -/
def bigPart : String := String.mk (List.replicate 5242881 'A')

theorem strBytes_oneMiB : strBytes oneMiB = 1048576 := strBytes_replicate_A _

theorem oneMiB_ne_done : oneMiB ≠ "done" := replicate_A_ne_done _ (by decide)

theorem twelveMiB_ne_done : twelveMiB ≠ "done" := replicate_A_ne_done _ (by decide)

theorem bigPart_ne_done : bigPart ≠ "done" := replicate_A_ne_done _ (by decide)

theorem bytesLen_replicate_oneMiB (k : Nat) :
    bytesLen (List.replicate k oneMiB) = k * 1048576 := by
  induction k with
  | zero => rfl
  | succ j ih =>
    simp only [List.replicate, bytesLen, List.map, List.sum_cons] at ih ⊢
    rw [ih, strBytes_oneMiB]
    ring

/-- Appending a sub-threshold message only grows the buffer. -/
theorem s3Step_append (u : Nat → Bool) (m : String) (st : S3St)
    (hm : m ≠ "done") (hsz : ¬ 5242880 < bytesLen (st.data ++ [m])) :
    s3Step u m st = .ok { st with data := st.data ++ [m] } := by
  simp [s3Step, hm, hsz]

/-- A message that pushes the buffer over the threshold flushes one part. -/
theorem s3Step_flush (u : Nat → Bool) (m : String) (st : S3St)
    (hm : m ≠ "done") (hsz : 5242880 < bytesLen (st.data ++ [m]))
    (hu : u st.part_number = true) :
    s3Step u m st = .ok
      { part_number := st.part_number + 1, data := [],
        completed_parts := st.completed_parts ++ [st.part_number],
        uploaded := st.uploaded ++ [(st.part_number, st.data ++ [m])],
        upload_calls := st.upload_calls + 1 } := by
  simp [s3Step, hm, hsz, hu]

/-- The `"done"` step always flushes the buffer (even when it is empty). -/
theorem s3Step_done (u : Nat → Bool) (st : S3St) (hu : u st.part_number = true) :
    s3Step u "done" st = .ok
      { part_number := st.part_number + 1, data := [],
        completed_parts := st.completed_parts ++ [st.part_number],
        uploaded := st.uploaded ++ [(st.part_number, st.data)],
        upload_calls := st.upload_calls + 1 } := by
  simp [s3Step, hu]

/-- A failing upload ends the loop in a panic. -/
theorem s3Step_fail (u : Nat → Bool) (m : String) (st : S3St)
    (hflush : 5242880 < bytesLen (if m = "done" then st.data else st.data ++ [m])
      ∨ m = "done")
    (hu : u st.part_number = false) :
    s3Step u m st = .error
      { st with data := if m = "done" then st.data else st.data ++ [m],
                upload_calls := st.upload_calls + 1 } := by
  by_cases hm : m = "done"
  · simp [s3Step, hm, hu]
  · have h5 : 5242880 < bytesLen (st.data ++ [m]) := by
      rcases hflush with h | h
      · rwa [if_neg hm] at h
      · exact absurd h hm
    simp [s3Step, hm, hu, h5]

/-- Consuming a non-`"done"` message whose step succeeds continues the loop. -/
theorem s3Consume_cons (u : Nat → Bool) (m : String) (ms : List String)
    (st st' : S3St) (hm : m ≠ "done") (hstep : s3Step u m st = .ok st') :
    s3Consume u (m :: ms) st = s3Consume u ms st' := by
  simp [s3Consume, hstep, hm]

/-- Case analysis of one loop step: either a plain append (no upload), or a
flush with a successful upload, or a panic on a failed upload. -/
theorem s3Step_case (u : Nat → Bool) (m : String) (st : S3St) :
    (s3Step u m st = .ok { st with data := st.data ++ [m] } ∧ m ≠ "done" ∧
      ¬ 5242880 < bytesLen (st.data ++ [m]))
    ∨ (s3Step u m st = .ok
        { part_number := st.part_number + 1, data := [],
          completed_parts := st.completed_parts ++ [st.part_number],
          uploaded := st.uploaded ++
            [(st.part_number, if m = "done" then st.data else st.data ++ [m])],
          upload_calls := st.upload_calls + 1 } ∧ u st.part_number = true ∧
        (5242880 < bytesLen (if m = "done" then st.data else st.data ++ [m])
          ∨ m = "done"))
    ∨ (s3Step u m st = .error
        { st with data := if m = "done" then st.data else st.data ++ [m],
                  upload_calls := st.upload_calls + 1 } ∧
        u st.part_number = false ∧
        (5242880 < bytesLen (if m = "done" then st.data else st.data ++ [m])
          ∨ m = "done")) := by
  by_cases hm : m = "done"
  · cases hu : u st.part_number with
    | true =>
      refine Or.inr (Or.inl ⟨?_, rfl, Or.inr hm⟩)
      rw [hm, s3Step_done u st hu]
      simp [hm]
    | false =>
      exact Or.inr (Or.inr ⟨s3Step_fail u m st (Or.inr hm) hu, rfl, Or.inr hm⟩)
  · by_cases hsz : 5242880 < bytesLen (st.data ++ [m])
    · cases hu : u st.part_number with
      | true =>
        refine Or.inr (Or.inl ⟨?_, rfl, Or.inl (by rwa [if_neg hm])⟩)
        rw [s3Step_flush u m st hm hsz hu]
        simp [hm]
      | false =>
        refine Or.inr (Or.inr ⟨?_, rfl, Or.inl (by rwa [if_neg hm])⟩)
        exact s3Step_fail u m st (Or.inl (by rwa [if_neg hm])) hu
    · exact Or.inl ⟨s3Step_append u m st hm hsz, hm, hsz⟩

/-- The bookkeeping invariant of the loop state: recorded part numbers are
exactly `1, 2, ...` in order, they agree with the uploaded parts, and the
next part number continues the sequence. -/
def S3Inv (st : S3St) : Prop :=
  st.completed_parts = List.range' 1 st.uploaded.length ∧
  st.uploaded.map Prod.fst = st.completed_parts ∧
  st.part_number = st.uploaded.length + 1

theorem s3Step_inv (u : Nat → Bool) (m : String) (st st' : S3St)
    (h : s3Step u m st = .ok st') (hinv : S3Inv st) : S3Inv st' := by
  obtain ⟨h1, h2, h3⟩ := hinv
  rcases s3Step_case u m st with ⟨heq, -, -⟩ | ⟨heq, -, -⟩ | ⟨heq, -, -⟩
  · rw [heq] at h
    cases h
    exact ⟨h1, h2, h3⟩
  · rw [heq] at h
    cases h
    refine ⟨?_, ?_, ?_⟩
    · show st.completed_parts ++ [st.part_number] = _
      simp only [List.length_append, List.length_singleton]
      rw [List.range'_1_concat, h1, h3, Nat.add_comm 1]
    · show (st.uploaded ++ _).map Prod.fst = st.completed_parts ++ [st.part_number]
      rw [List.map_append, h2]
      simp
    · show st.part_number + 1 = _
      simp only [List.length_append, List.length_singleton]
      rw [h3]
  · rw [heq] at h
    cases h

theorem s3Consume_inv (u : Nat → Bool) :
    ∀ (msgs : List String) (st st' : S3St),
      s3Consume u msgs st = .ok st' → S3Inv st → S3Inv st' := by
  intro msgs
  induction msgs with
  | nil =>
    intro st st' h hinv
    exact s3Step_inv u "done" st st' h hinv
  | cons m ms ih =>
    intro st st' h hinv
    simp only [s3Consume] at h
    cases hstep : s3Step u m st with
    | error stp => rw [hstep] at h; cases h
    | ok st1 =>
      rw [hstep] at h
      dsimp only at h
      have hinv1 := s3Step_inv u m st st1 hstep hinv
      by_cases hm : m = "done"
      · rw [if_pos hm] at h
        cases h
        exact hinv1
      · rw [if_neg hm] at h
        exact ih st1 st' h hinv1

/-- With uploads always succeeding, the consumer loop never panics. -/
theorem s3Consume_total :
    ∀ (msgs : List String) (st : S3St),
      ∃ st', s3Consume (fun _ => true) msgs st = .ok st' := by
  intro msgs
  induction msgs with
  | nil =>
    intro st
    exact ⟨_, s3Step_done (fun _ => true) st rfl⟩
  | cons m ms ih =>
    intro st
    rcases s3Step_case (fun _ => true) m st with ⟨heq, hm, -⟩ | ⟨heq, -, -⟩ | ⟨-, hfalse, -⟩
    · obtain ⟨st', hst'⟩ := ih _
      exact ⟨st', by simp only [s3Consume, heq]; rw [if_neg hm]; exact hst'⟩
    · by_cases hm : m = "done"
      · exact ⟨_, by simp only [s3Consume, heq]; rw [if_pos hm]⟩
      · obtain ⟨st', hst'⟩ := ih _
        exact ⟨st', by simp only [s3Consume, heq]; rw [if_neg hm]; exact hst'⟩
    · cases hfalse

/-- The loop always ends by flushing the remaining buffer, so a completed run
has uploaded at least one part. -/
theorem s3Consume_nonempty (u : Nat → Bool) :
    ∀ (msgs : List String) (st st' : S3St),
      s3Consume u msgs st = .ok st' → st'.uploaded ≠ [] := by
  intro msgs
  induction msgs with
  | nil =>
    intro st st' h
    simp only [s3Consume] at h
    rcases s3Step_case u "done" st with ⟨-, hm, -⟩ | ⟨heq, -, -⟩ | ⟨heq, -, -⟩
    · exact absurd rfl hm
    · rw [heq] at h; cases h; simp
    · rw [heq] at h; cases h
  | cons m ms ih =>
    intro st st' h
    simp only [s3Consume] at h
    cases hstep : s3Step u m st with
    | error stp => rw [hstep] at h; cases h
    | ok st1 =>
      rw [hstep] at h
      dsimp only at h
      by_cases hm : m = "done"
      · rw [if_pos hm] at h
        cases h
        rcases s3Step_case u m st with ⟨-, hm', -⟩ | ⟨heq, -, -⟩ | ⟨heq, -, -⟩
        · exact absurd hm hm'
        · rw [heq] at hstep; cases hstep; simp
        · rw [heq] at hstep; cases hstep
      · rw [if_neg hm] at h
        exact ih st1 st' h

/-- Concatenated content of the uploaded parts. -/
def partsContent (uploaded : List (Nat × List String)) : String :=
  joinAll (uploaded.map fun pt => joinAll pt.2)

/-- A successful non-`"done"` step moves content around but never drops any:
uploaded content plus buffered content grows by exactly the received message. -/
theorem s3Step_content (u : Nat → Bool) (m : String) (st st' : S3St)
    (hm : m ≠ "done") (h : s3Step u m st = .ok st') :
    partsContent st'.uploaded ++ joinAll st'.data =
      (partsContent st.uploaded ++ joinAll st.data) ++ m := by
  rcases s3Step_case u m st with ⟨heq, -, -⟩ | ⟨heq, -, -⟩ | ⟨heq, -, -⟩
  · rw [heq] at h
    cases h
    show partsContent st.uploaded ++ joinAll (st.data ++ [m]) = _
    rw [joinAll_append, joinAll_single, ← str_append_assoc]
  · rw [heq] at h
    cases h
    show partsContent (st.uploaded ++ [(st.part_number,
        if m = "done" then st.data else st.data ++ [m])]) ++ joinAll [] = _
    rw [if_neg hm]
    unfold partsContent
    rw [List.map_append, joinAll_append]
    simp only [List.map_cons, List.map_nil]
    rw [joinAll_single, joinAll_append, joinAll_single]
    show _ ++ "" = _
    rw [str_append_empty, ← str_append_assoc]
  · rw [heq] at h
    cases h

/-- Over a `"done"`-free message sequence, a completed loop leaves an empty
buffer and has uploaded exactly the received content, in order. -/
theorem s3Consume_content (u : Nat → Bool) :
    ∀ (msgs : List String) (st st' : S3St), "done" ∉ msgs →
      s3Consume u msgs st = .ok st' →
      partsContent st'.uploaded =
        (partsContent st.uploaded ++ joinAll st.data) ++ joinAll msgs ∧
      st'.data = [] := by
  intro msgs
  induction msgs with
  | nil =>
    intro st st' _ h
    simp only [s3Consume] at h
    rcases s3Step_case u "done" st with ⟨-, hm, -⟩ | ⟨heq, -, -⟩ | ⟨heq, -, -⟩
    · exact absurd rfl hm
    · rw [heq] at h
      cases h
      constructor
      · show partsContent (st.uploaded ++ [(st.part_number,
            if "done" = "done" then st.data else st.data ++ ["done"])]) = _
        rw [if_pos rfl]
        unfold partsContent
        rw [List.map_append, joinAll_append]
        simp only [List.map_cons, List.map_nil]
        rw [joinAll_single]
        show _ = (_ ++ _) ++ ""
        rw [str_append_empty]
      · rfl
    · rw [heq] at h; cases h
  | cons m ms ih =>
    intro st st' hnd h
    have hm : m ≠ "done" := fun hc => hnd (by simp [hc])
    have hms : "done" ∉ ms := fun hc => hnd (by simp [hc])
    simp only [s3Consume] at h
    cases hstep : s3Step u m st with
    | error stp => rw [hstep] at h; cases h
    | ok st1 =>
      rw [hstep] at h
      dsimp only at h
      rw [if_neg hm] at h
      obtain ⟨hcontent, hdata⟩ := ih st1 st' hms h
      have hstepc := s3Step_content u m st st1 hm hstep
      refine ⟨?_, hdata⟩
      rw [hcontent, hstepc]
      show _ = (partsContent st.uploaded ++ joinAll st.data) ++ (m ++ joinAll ms)
      rw [← str_append_assoc]

theorem str_empty_append (s : String) : "" ++ s = s := by
  cases s with
  | mk z =>
    show String.mk ([] ++ z) = String.mk z
    rw [List.nil_append]

theorem strBytes_twelveMiB : strBytes twelveMiB = 12582912 := strBytes_replicate_A _

theorem strBytes_bigPart : strBytes bigPart = 5242881 := strBytes_replicate_A _

/-- Consuming one more 1 MiB batch on top of at most 4 MiB only appends. -/
theorem step_oneMiB_append (u : Nat → Bool) (st : S3St) (i : Nat)
    (hd : st.data = List.replicate i oneMiB) (hi : i + 1 ≤ 5) :
    s3Step u oneMiB st = .ok { st with data := List.replicate (i + 1) oneMiB } := by
  have hdat : st.data ++ [oneMiB] = List.replicate (i + 1) oneMiB := by
    rw [hd, ← List.replicate_succ']
  have hsz : ¬ 5242880 < bytesLen (st.data ++ [oneMiB]) := by
    rw [hdat, bytesLen_replicate_oneMiB]
    omega
  rw [s3Step_append u oneMiB st oneMiB_ne_done hsz, hdat]

/-- Consuming a sixth 1 MiB batch flushes a 6 MiB part. -/
theorem step_oneMiB_flush (u : Nat → Bool) (st : S3St)
    (hd : st.data = List.replicate 5 oneMiB) (hu : u st.part_number = true) :
    s3Step u oneMiB st = .ok
      { part_number := st.part_number + 1, data := [],
        completed_parts := st.completed_parts ++ [st.part_number],
        uploaded := st.uploaded ++ [(st.part_number, List.replicate 6 oneMiB)],
        upload_calls := st.upload_calls + 1 } := by
  have hdat : st.data ++ [oneMiB] = List.replicate 6 oneMiB := by
    rw [hd]
    exact (List.replicate_succ' 5 oneMiB).symm
  have hsz : 5242880 < bytesLen (st.data ++ [oneMiB]) := by
    rw [hdat, bytesLen_replicate_oneMiB]
    omega
  rw [s3Step_flush u oneMiB st oneMiB_ne_done hsz hu, hdat]

/-- The concrete 12 MiB feed of twelve 1 MiB batches: two 6 MiB threshold
flushes plus the end-of-stream flush of the (empty) remainder. -/
theorem s3Consume_twelve :
    s3Consume (fun _ => true) (List.replicate 12 oneMiB) S3St.init = .ok
      { part_number := 4, data := [], completed_parts := [1, 2, 3],
        uploaded := [(1, List.replicate 6 oneMiB), (2, List.replicate 6 oneMiB),
                     (3, [])],
        upload_calls := 3 } := by
  rw [show List.replicate 12 oneMiB
      = oneMiB :: oneMiB :: oneMiB :: oneMiB :: oneMiB :: oneMiB ::
        oneMiB :: oneMiB :: oneMiB :: oneMiB :: oneMiB :: oneMiB :: [] from rfl]
  rw [s3Consume_cons _ _ _ _ _ oneMiB_ne_done (step_oneMiB_append _ _ 0 rfl (by omega))]
  rw [s3Consume_cons _ _ _ _ _ oneMiB_ne_done (step_oneMiB_append _ _ 1 rfl (by omega))]
  rw [s3Consume_cons _ _ _ _ _ oneMiB_ne_done (step_oneMiB_append _ _ 2 rfl (by omega))]
  rw [s3Consume_cons _ _ _ _ _ oneMiB_ne_done (step_oneMiB_append _ _ 3 rfl (by omega))]
  rw [s3Consume_cons _ _ _ _ _ oneMiB_ne_done (step_oneMiB_append _ _ 4 rfl (by omega))]
  rw [s3Consume_cons _ _ _ _ _ oneMiB_ne_done (step_oneMiB_flush _ _ rfl rfl)]
  rw [s3Consume_cons _ _ _ _ _ oneMiB_ne_done (step_oneMiB_append _ _ 0 rfl (by omega))]
  rw [s3Consume_cons _ _ _ _ _ oneMiB_ne_done (step_oneMiB_append _ _ 1 rfl (by omega))]
  rw [s3Consume_cons _ _ _ _ _ oneMiB_ne_done (step_oneMiB_append _ _ 2 rfl (by omega))]
  rw [s3Consume_cons _ _ _ _ _ oneMiB_ne_done (step_oneMiB_append _ _ 3 rfl (by omega))]
  rw [s3Consume_cons _ _ _ _ _ oneMiB_ne_done (step_oneMiB_append _ _ 4 rfl (by omega))]
  rw [s3Consume_cons _ _ _ _ _ oneMiB_ne_done (step_oneMiB_flush _ _ rfl rfl)]
  exact s3Step_done _ _ rfl

/-- `s3Run` on a successfully drained channel, in terms of the final loop
state. -/
theorem s3Run_eq_ok (u : Nat → Bool) (c : Bool) (msgs : List String) (st : S3St)
    (h : s3Consume u msgs S3St.init = .ok st) :
    s3Run u c msgs =
      if c then
        { uploaded := st.uploaded, completed_parts := st.completed_parts,
          upload_calls := st.upload_calls, completion_calls := 1, abort_calls := 0,
          panicked := false, succeeded := true }
      else
        { uploaded := st.uploaded, completed_parts := st.completed_parts,
          upload_calls := st.upload_calls, completion_calls := 1, abort_calls := 1,
          panicked := false, succeeded := false } := by
  unfold s3Run
  rw [h]

/-- `s3Run` on a loop that panicked, in terms of the state at the panic. -/
theorem s3Run_eq_error (u : Nat → Bool) (c : Bool) (msgs : List String) (st : S3St)
    (h : s3Consume u msgs S3St.init = .error st) :
    s3Run u c msgs =
      { uploaded := st.uploaded, completed_parts := st.completed_parts,
        upload_calls := st.upload_calls, completion_calls := 0, abort_calls := 0,
        panicked := true, succeeded := false } := by
  unfold s3Run
  rw [h]

/-! ## C3 — multipart sink accumulation -/

/-- C3 counterexample: a single batch of exactly 12 MiB (12582912 bytes)
yields 2 uploaded parts — one 12 MiB threshold flush and the end-of-stream
flush of the then-empty buffer — not the 3 parts the claim requires of every
feed summing to 12 MiB. -/
theorem claim_C3_counterexample :
    bytesLen [twelveMiB] = 12582912 ∧
    (s3Run (fun _ => true) true [twelveMiB]).uploaded.length = 2 ∧
    ¬ (s3Run (fun _ => true) true [twelveMiB]).uploaded.length = 3 := by
  have hsz : 5242880 < bytesLen (S3St.init.data ++ [twelveMiB]) := by
    simp [S3St.init, bytesLen, strBytes_twelveMiB]
  have hc : s3Consume (fun _ => true) [twelveMiB] S3St.init = .ok
      { part_number := 3, data := [], completed_parts := [1, 2],
        uploaded := [(1, [twelveMiB]), (2, [])], upload_calls := 2 } := by
    rw [s3Consume_cons _ _ _ _ _ twelveMiB_ne_done
      (s3Step_flush _ _ _ twelveMiB_ne_done hsz rfl)]
    exact s3Step_done _ _ rfl
  refine ⟨by simp [bytesLen, strBytes_twelveMiB], ?_⟩
  rw [s3Run_eq_ok _ _ _ _ hc]
  decide

/-- C3 amended: a part upload is issued exactly when the buffer strictly
exceeds 5 MiB (5242880 bytes) after appending, or at end-of-stream (where the
remaining buffer — possibly empty — is always flushed, exactly once); every
flush clears the buffer; with uploads succeeding, recorded part numbers are
exactly `1, 2, ...` in ascending order and agree with the uploaded parts, at
least one part is always uploaded, and over a `"done"`-free feed the uploaded
parts carry exactly the received bytes in order (nothing dropped); feeding
twelve 1 MiB batches (12 MiB in total) yields exactly 3 parts numbered
`[1, 2, 3]` (6 MiB, 6 MiB, and an empty end-of-stream part). -/
theorem claim_C3_amended :
    (∀ (u : Nat → Bool) (m : String) (st st' : S3St),
        s3Step u m st = .ok st' →
        (st'.upload_calls = st.upload_calls + 1 ↔
          5242880 < bytesLen (if m = "done" then st.data else st.data ++ [m])
            ∨ m = "done")
        ∧ (st'.upload_calls = st.upload_calls + 1 → st'.data = []))
    ∧ (∀ (c : Bool) (msgs : List String),
        (s3Run (fun _ => true) c msgs).completed_parts
          = List.range' 1 (s3Run (fun _ => true) c msgs).uploaded.length ∧
        ((s3Run (fun _ => true) c msgs).uploaded.map Prod.fst
          = (s3Run (fun _ => true) c msgs).completed_parts) ∧
        1 ≤ (s3Run (fun _ => true) c msgs).uploaded.length)
    ∧ (∀ (c : Bool) (msgs : List String), "done" ∉ msgs →
        partsContent (s3Run (fun _ => true) c msgs).uploaded = joinAll msgs)
    ∧ (s3Run (fun _ => true) true (List.replicate 12 oneMiB)).uploaded.length = 3
    ∧ (s3Run (fun _ => true) true (List.replicate 12 oneMiB)).completed_parts
        = [1, 2, 3] := by
  refine ⟨?_, ?_, ?_, ?_, ?_⟩
  · intro u m st st' h
    rcases s3Step_case u m st with ⟨heq, hm, hsz⟩ | ⟨heq, -, hcond⟩ | ⟨heq, -, -⟩
    · rw [heq] at h
      cases h
      constructor
      · show st.upload_calls = st.upload_calls + 1 ↔ _
        rw [if_neg hm]
        constructor
        · intro hfalse
          exact absurd hfalse (by omega)
        · intro hor
          rcases hor with h5 | hdone
          · exact absurd h5 hsz
          · exact absurd hdone hm
      · intro hfalse
        have hfalse2 : st.upload_calls = st.upload_calls + 1 := hfalse
        exact absurd hfalse2 (by omega)
    · rw [heq] at h
      cases h
      exact ⟨⟨fun _ => hcond, fun _ => rfl⟩, fun _ => rfl⟩
    · rw [heq] at h
      cases h
  · intro c msgs
    obtain ⟨st', hc⟩ := s3Consume_total msgs S3St.init
    have hinv : S3Inv st' := s3Consume_inv _ msgs _ st' hc
      ⟨rfl, rfl, rfl⟩
    have hne := s3Consume_nonempty _ msgs _ st' hc
    obtain ⟨h1, h2, -⟩ := hinv
    have hlen : 1 ≤ st'.uploaded.length :=
      List.length_pos.mpr hne
    unfold s3Run
    rw [hc]
    cases c <;> exact ⟨h1, h2, hlen⟩
  · intro c msgs hnd
    obtain ⟨st', hc⟩ := s3Consume_total msgs S3St.init
    obtain ⟨hcontent, -⟩ := s3Consume_content _ msgs _ st' hnd hc
    have hinit : (partsContent S3St.init.uploaded ++ joinAll S3St.init.data)
        ++ joinAll msgs = joinAll msgs := by
      show ("" ++ "") ++ joinAll msgs = joinAll msgs
      rw [str_append_empty, str_empty_append]
    rw [hinit] at hcontent
    unfold s3Run
    rw [hc]
    cases c <;> exact hcontent
  · rw [s3Run_eq_ok _ _ _ _ s3Consume_twelve]
    rfl
  · rw [s3Run_eq_ok _ _ _ _ s3Consume_twelve]
    rfl

/-- Witness for the amended C3: a single small batch is uploaded in full as
part 1 by the end-of-stream flush. -/
theorem claim_C3_amended_witness :
    partsContent (s3Run (fun _ => true) true ["X"]).uploaded = joinAll ["X"] :=
  claim_C3_amended.2.2.1 true ["X"] (by simp)

/-! ## C4 — failure handling of the multipart sink -/

/-- C4 counterexample: with `upload_part` failing on part number 2 (the spec's
own scenario), the thread panics: there are two upload calls, no completion
call — and, against the claim, zero abort calls. -/
theorem claim_C4_counterexample :
    (s3Run (fun n => n != 2) true [bigPart]).panicked = true ∧
    (s3Run (fun n => n != 2) true [bigPart]).upload_calls = 2 ∧
    (s3Run (fun n => n != 2) true [bigPart]).completion_calls = 0 ∧
    ¬ (s3Run (fun n => n != 2) true [bigPart]).abort_calls = 1 := by
  have hsz : 5242880 < bytesLen (S3St.init.data ++ [bigPart]) := by
    simp [S3St.init, bytesLen, strBytes_bigPart]
  have hc : s3Consume (fun n => n != 2) [bigPart] S3St.init = .error
      { part_number := 2, data := [], completed_parts := [1],
        uploaded := [(1, [bigPart])], upload_calls := 2 } := by
    rw [s3Consume_cons _ _ _ _ _ bigPart_ne_done
      (s3Step_flush _ _ _ bigPart_ne_done hsz rfl)]
    exact s3Step_fail _ "done" _ (Or.inr rfl) rfl
  rw [s3Run_eq_error _ _ _ _ hc]
  decide

/-- C4 amended: when the completion call fails, the sink makes exactly one
completion attempt and exactly one abort call and ends unsuccessfully; when a
part-upload call fails, the thread panics at once — no abort request and no
completion call are ever made. -/
theorem claim_C4_amended :
    (∀ (u : Nat → Bool) (msgs : List String),
        (s3Run u false msgs).panicked = false →
        (s3Run u false msgs).completion_calls = 1 ∧
        (s3Run u false msgs).abort_calls = 1 ∧
        (s3Run u false msgs).succeeded = false)
    ∧ (∀ (u : Nat → Bool) (c : Bool) (msgs : List String),
        (s3Run u c msgs).panicked = true →
        (s3Run u c msgs).abort_calls = 0 ∧
        (s3Run u c msgs).completion_calls = 0 ∧
        (s3Run u c msgs).succeeded = false) := by
  constructor
  · intro u msgs h
    unfold s3Run at h ⊢
    cases hc : s3Consume u msgs S3St.init with
    | error st =>
      rw [hc] at h
      simp at h
    | ok st => simp
  · intro u c msgs h
    unfold s3Run at h ⊢
    cases hc : s3Consume u msgs S3St.init with
    | error st => simp
    | ok st =>
      rw [hc] at h
      cases c <;> simp at h

/-- Witness for the amended C4: a failing completion call on an empty feed
aborts once; a failing first upload panics with no abort and no completion. -/
theorem claim_C4_amended_witness :
    ((s3Run (fun _ => true) false []).completion_calls = 1 ∧
      (s3Run (fun _ => true) false []).abort_calls = 1 ∧
      (s3Run (fun _ => true) false []).succeeded = false)
    ∧ ((s3Run (fun _ => false) true []).abort_calls = 0 ∧
      (s3Run (fun _ => false) true []).completion_calls = 0 ∧
      (s3Run (fun _ => false) true []).succeeded = false) :=
  ⟨claim_C4_amended.1 (fun _ => true) [] (by decide),
   claim_C4_amended.2 (fun _ => false) true [] (by decide)⟩

/-! ## C10 — the "done" sentinel -/

/-- Receiving the literal message `"done"` ends the loop exactly as a closed
channel would, ignoring every later message. -/
theorem s3Consume_done_stop (u : Nat → Bool) :
    ∀ (pre : List String) (st : S3St) (post : List String), "done" ∉ pre →
      s3Consume u (pre ++ "done" :: post) st = s3Consume u pre st := by
  intro pre
  induction pre with
  | nil =>
    intro st post _
    show s3Consume u ("done" :: post) st = s3Step u "done" st
    simp only [s3Consume]
    cases hstep : s3Step u "done" st with
    | error stp => rfl
    | ok st' => simp
  | cons m pre' ih =>
    intro st post hnd
    have hm : m ≠ "done" := fun hc => hnd (by simp [hc])
    have hnd' : "done" ∉ pre' := fun hc => hnd (by simp [hc])
    show s3Consume u (m :: (pre' ++ "done" :: post)) st = s3Consume u (m :: pre') st
    simp only [s3Consume]
    cases hstep : s3Step u m st with
    | error stp => rfl
    | ok st' =>
      dsimp only
      rw [if_neg hm, if_neg hm]
      exact ih st' post hnd'

/-- C10: a received batch equal to the string `"done"` is treated as
end-of-stream — its content is never appended or uploaded, the remaining
buffer is flushed, the loop exits, and the upload is completed, silently
dropping every batch still in the channel: the run equals the run on the
messages before the sentinel alone, and (when nothing panics) the completion
call is still made exactly once. -/
theorem claim_C10 (u : Nat → Bool) (c : Bool) (pre post : List String)
    (hpre : "done" ∉ pre) :
    s3Run u c (pre ++ "done" :: post) = s3Run u c pre ∧
    ((s3Run u c (pre ++ "done" :: post)).panicked = false →
      (s3Run u c (pre ++ "done" :: post)).completion_calls = 1) := by
  have hstop := s3Consume_done_stop u pre S3St.init post hpre
  constructor
  · unfold s3Run
    rw [hstop]
  · intro h
    unfold s3Run at h ⊢
    rw [hstop] at h ⊢
    cases hc : s3Consume u pre S3St.init with
    | error st =>
      rw [hc] at h
      simp at h
    | ok st => cases c <;> simp

/-- Witness for C10: a generated batch whose content is exactly `"done"`
finalizes the upload early and the batch `"X"` behind it is dropped. -/
theorem claim_C10_witness :
    s3Run (fun _ => true) true (([] : List String) ++ "done" :: ["X"])
      = s3Run (fun _ => true) true [] ∧
    ((s3Run (fun _ => true) true (([] : List String) ++ "done" :: ["X"])).panicked
        = false →
      (s3Run (fun _ => true) true
        (([] : List String) ++ "done" :: ["X"])).completion_calls = 1) :=
  claim_C10 (fun _ => true) true [] ["X"] (by simp)

end Fourree
